import Mathlib

/-!
Shallow embedding of the pyseis repository (src/bin/spatial_distance.py and
src/pyseis/spatial_track.py) over the reals, together with theorems settling
the frozen claims about the two modules.

Machine floats are modelled by real numbers; numpy NaN markers by `Option`;
Python exceptions by `Except String`.  The rasterio DEM accessor (affine
transform, nearest-cell lookup, elevation grid, resolution) is an external
collaborator and is embedded as a structure of abstract functions, exactly
the operations the source calls on it.
-/

namespace Pyseis

open Classical

/-! ### numpy / Python primitives used by the source -/

/-- Model of `np.linspace(a, b, n)`: `n` evenly spaced samples from `a` to `b`
inclusive (for `n = 1` numpy returns `[a]`, for `n = 0` the empty array). -/
noncomputable def linspace (a b : ℝ) (n : ℕ) : List ℝ :=
  (List.range n).map (fun i : ℕ => a + (b - a) * (i : ℝ) / ((n : ℝ) - 1))

/-- Model of `np.diff`: consecutive differences `l[i+1] - l[i]`. -/
noncomputable def diffs (l : List ℝ) : List ℝ :=
  List.zipWith (fun a b => b - a) l l.tail

/-- Model of Python 3 `round` (banker's rounding: halves go to the even
integer), as used for the sample count `n_int = round(line_length / res)`. -/
noncomputable def pyround (x : ℝ) : ℤ :=
  if x - ⌊x⌋ < 1 / 2 then ⌊x⌋
  else if 1 / 2 < x - ⌊x⌋ then ⌊x⌋ + 1
  else if 2 ∣ ⌊x⌋ then ⌊x⌋ else ⌊x⌋ + 1

/-- Model of `np.mean` of a 1-D array. -/
noncomputable def npMean (l : List ℝ) : ℝ := l.sum / l.length

/-- Model of `np.std` of a 1-D array (population standard deviation). -/
noncomputable def npStd (l : List ℝ) : ℝ :=
  Real.sqrt (((l.map (fun x => (x - npMean l) ^ 2)).sum) / l.length)

/-- Model of `np.min` of a nonempty array (0 on the empty array, where numpy
would raise). -/
noncomputable def listMin : List ℝ → ℝ
  | [] => 0
  | x :: xs => xs.foldl min x

/-- Model of `np.max` of a nonempty array (0 on the empty array, where numpy
would raise). -/
noncomputable def listMax : List ℝ → ℝ
  | [] => 0
  | x :: xs => xs.foldl max x

/-- Model of the Python slice `l[a:b]` (step 1), including the wrap-around of
negative indices and the clamping of out-of-range bounds. -/
def pySlice {α : Type} (l : List α) (a b : ℤ) : List α :=
  let n : ℤ := l.length
  let lo : ℤ := if a < 0 then max (a + n) 0 else min a n
  let hi : ℤ := if b < 0 then max (b + n) 0 else min b n
  (l.drop lo.toNat).take (hi.toNat - lo.toNat)

/-- Element of a list at a (possibly negative or out-of-range) integer index,
with 0 outside the valid range; used to express `np.correlate` sums. -/
noncomputable def getZ (l : List ℝ) (i : ℤ) : ℝ :=
  if 0 ≤ i ∧ i < (l.length : ℤ) then l.getD i.toNat 0 else 0

/-- Correlation of `a` against `v` at integer lag `k`:
`(corrAtLag a v k) = Σ_m a[m] * v[m - k]` (out-of-range factors are 0). -/
noncomputable def corrAtLag (a v : List ℝ) (k : ℤ) : ℝ :=
  ((List.range a.length).map (fun m => a.getD m 0 * getZ v ((m : ℤ) - k))).sum

/-- Model of `np.correlate(a, v, "full")`: output index `j` carries the
correlation at lag `j - (len(v) - 1)`. -/
noncomputable def correlateFull (a v : List ℝ) : List ℝ :=
  (List.range (a.length + v.length - 1)).map
    (fun j : ℕ => corrAtLag a v ((j : ℤ) - ((v.length : ℤ) - 1)))

/-! ### src/bin/spatial_distance.py -/

/-- The DEM accessor consumed by `spatial_distance` (a rasterio dataset in the
source): elevation grid `z`, pixel-to-world transform `xy`
(`rasterio.transform.xy`), world-to-pixel nearest-cell lookup `rowcol`
(`rasterio.transform.rowcol`), and cell resolution `res` (`dem.res[0]`). -/
structure DEM where
  rows : ℕ
  cols : ℕ
  z : ℕ → ℕ → ℝ
  xy : ℕ → ℕ → ℝ × ℝ
  rowcol : ℝ → ℝ → ℕ × ℕ
  res : ℝ

/-- The flattened list of world coordinates of all DEM cells, row-major, as
built from `np.indices` plus `rasterio.transform.xy` in the source; the cell
`(j, k)` sits at flat index `j * cols + k`. -/
noncomputable def xyDem (dem : DEM) : List (ℝ × ℝ) :=
  (List.range (dem.rows * dem.cols)).map
    (fun idx => dem.xy (idx / dem.cols) (idx % dem.cols))

/-- `np.min(xy_dem[:, 0])` — west edge of the DEM extent. -/
noncomputable def demXmin (dem : DEM) : ℝ := listMin ((xyDem dem).map Prod.fst)

/-- `np.max(xy_dem[:, 0])` — east edge of the DEM extent. -/
noncomputable def demXmax (dem : DEM) : ℝ := listMax ((xyDem dem).map Prod.fst)

/-- `np.min(xy_dem[:, 1])` — south edge of the DEM extent. -/
noncomputable def demYmin (dem : DEM) : ℝ := listMin ((xyDem dem).map Prod.snd)

/-- `np.max(xy_dem[:, 1])` — north edge of the DEM extent. -/
noncomputable def demYmax (dem : DEM) : ℝ := listMax ((xyDem dem).map Prod.snd)

/-- The aggregate station-extent check of PART 0 of `spatial_distance`:
some station coordinate sticks out of the DEM extent box. -/
noncomputable def stationsOutside (stations : List (ℝ × ℝ)) (dem : DEM) : Prop :=
  listMin (stations.map Prod.fst) < demXmin dem ∨
  demXmax dem < listMax (stations.map Prod.fst) ∨
  listMin (stations.map Prod.snd) < demYmin dem ∨
  demYmax dem < listMax (stations.map Prod.snd)

/-- The AOI extent actually used: the argument when given, otherwise the full
DEM extent `(xmin, xmax, ymin, ymax)`. -/
noncomputable def aoiExt (dem : DEM) (aoi : Option (ℝ × ℝ × ℝ × ℝ)) : ℝ × ℝ × ℝ × ℝ :=
  match aoi with
  | none => (demXmin dem, demXmax dem, demYmin dem, demYmax dem)
  | some a => a

/-- The AOI extent check of PART 0: the AOI box sticks out of the DEM extent. -/
noncomputable def aoiOutside (e : ℝ × ℝ × ℝ × ℝ) (dem : DEM) : Prop :=
  e.1 < demXmin dem ∨ demXmax dem < e.2.1 ∨
  e.2.2.1 < demYmin dem ∨ demYmax dem < e.2.2.2

/-- Membership of a cell's world coordinates in the AOI box — the condition
that sets `aoi_array` to 1 for that cell. -/
def inAOI (e : ℝ × ℝ × ℝ × ℝ) (p : ℝ × ℝ) : Prop :=
  e.1 ≤ p.1 ∧ p.1 ≤ e.2.1 ∧ e.2.2.1 ≤ p.2 ∧ p.2 ≤ e.2.2.2

/-- Planar (2-D) Euclidean distance, the `line_length` first computed for a
station/target pair. -/
noncomputable def planarDist (p q : ℝ × ℝ) : ℝ :=
  Real.sqrt ((p.1 - q.1) ^ 2 + (p.2 - q.2) ^ 2)

/-- The sample count of the source: `n_int = round(line_length / dem.res[0])`,
replaced by 1 when it is 0. -/
noncomputable def nInt (dem : DEM) (p q : ℝ × ℝ) : ℕ :=
  let n := pyround (planarDist p q / dem.res)
  (if n = 0 then 1 else n).toNat

/-- Elevations sampled along the segment from `p` to `q` at `n` evenly spaced
points, each looked up in the DEM grid via the nearest-cell transform
(`z_int` in the source). -/
noncomputable def zInt (dem : DEM) (p q : ℝ × ℝ) (n : ℕ) : List ℝ :=
  (List.zip (linspace p.1 q.1 n) (linspace p.2 q.2 n)).map
    (fun pt => dem.z (dem.rowcol pt.1 pt.2).1 (dem.rowcol pt.1 pt.2).2)

/-- The straight-line elevation profile `z_dir`: linear interpolation between
the endpoint elevations across the `n` samples. -/
noncomputable def zDirRaw (dem : DEM) (p q : ℝ × ℝ) (n : ℕ) : List ℝ :=
  linspace ((zInt dem p q n).headD 0) ((zInt dem p q n).getLastD 0) n

/-- The clipping assignment `z_dir[z_dir > z_int] = z_int[z_dir > z_int]`:
wherever the interpolated profile rises above the terrain, it is pulled down
to the terrain elevation. -/
noncomputable def clipProfile (zdir zint : List ℝ) : List ℝ :=
  List.zipWith (fun d t => if t < d then t else d) zdir zint

/-- The elevation profile actually used for the length computation: clipped
when the topography flag is set, the raw straight-line profile otherwise. -/
noncomputable def profile (dem : DEM) (topo : Bool) (p q : ℝ × ℝ) (n : ℕ) : List ℝ :=
  if topo then clipProfile (zDirRaw dem p q n) (zInt dem p q n)
  else zDirRaw dem p q n

/-- The per-cell distance of the map branch (PART 1 of `spatial_distance`):
`sqrt(dx^2 + dy^2 + (np.sum(np.abs(np.diff(z_dir))))^2)`. -/
noncomputable def mapLineLength (dem : DEM) (topo : Bool) (p q : ℝ × ℝ) : ℝ :=
  Real.sqrt ((p.1 - q.1) ^ 2 + (p.2 - q.2) ^ 2 +
    (((diffs (profile dem topo p q (nInt dem p q))).map (fun v => |v|)).sum) ^ 2)

/-- The per-pair distance of the matrix branch (PART 2 of `spatial_distance`):
`np.sum(np.sqrt(np.diff(x)^2 + np.diff(y)^2 + np.diff(z_dir)^2))`. -/
noncomputable def matrixPathLength (dem : DEM) (topo : Bool) (p q : ℝ × ℝ) : ℝ :=
  (List.zipWith (fun dxy dz => Real.sqrt (dxy.1 ^ 2 + dxy.2 ^ 2 + dz ^ 2))
    (List.zip (diffs (linspace p.1 q.1 (nInt dem p q)))
              (diffs (linspace p.2 q.2 (nInt dem p q))))
    (diffs (profile dem topo p q (nInt dem p q)))).sum

/-- Result record of `spatial_distance`: the per-station distance maps (grids
of `Option ℝ`, `none` being the NaN marker; a map is `none` altogether when
the maps flag is off) and the optional station distance matrix. -/
structure SDResult where
  maps : List (Option (List (List (Option ℝ))))
  matrix : Option (List (List ℝ))

/-- Shallow embedding of `spatial_distance` (src/bin/spatial_distance.py).
The NaN precondition on the DEM is vacuous over ℝ and is therefore omitted;
the two extent checks of PART 0 are performed, in source order, before any
distance computation, and each failure is the corresponding `ValueError`. -/
noncomputable def spatial_distance (stations : List (ℝ × ℝ)) (dem : DEM)
    (topography domaps domatrix : Bool) (aoi : Option (ℝ × ℝ × ℝ × ℝ)) :
    Except String SDResult :=
  if stationsOutside stations dem then
    .error "Some station coordinates are outside DEM extent!"
  else if aoiOutside (aoiExt dem aoi) dem then
    .error "AOI extent is beyond DEM extent!"
  else
    .ok
      { maps :=
          if domaps then
            stations.map (fun s => some (
              (List.range dem.rows).map (fun j =>
                (List.range dem.cols).map (fun k =>
                  if inAOI (aoiExt dem aoi) (dem.xy j k) then
                    some (mapLineLength dem topography s (dem.xy j k))
                  else none))))
          else stations.map (fun _ => none)
        matrix :=
          if domatrix then
            some (stations.map (fun si =>
              stations.map (fun sj => matrixPathLength dem topography si sj)))
          else none }

/-- Cell `(j, k)` of the `i`-th distance map of a `spatial_distance` result
(`none` when the call failed or an index is out of range). -/
noncomputable def mapCell (r : Except String SDResult) (i j k : ℕ) : Option ℝ :=
  match r with
  | .ok res => (((res.maps.getD i none).getD []).getD j []).getD k none
  | .error _ => none

/-- Entry `(i, j)` of the distance matrix of a `spatial_distance` result
(0 when the call failed or an index is out of range). -/
noncomputable def matEntry (r : Except String SDResult) (i j : ℕ) : ℝ :=
  match r with
  | .ok res => ((res.matrix.getD []).getD i []).getD j 0
  | .error _ => 0

/-- Map-mode distance as the spec words it: sqrt of the squared planar
distance plus the squared total vertical excursion along the clipped profile,
with sample count `max(1, round(d_xy / cell_size))`. -/
noncomputable def specSampleCount (dem : DEM) (p q : ℝ × ℝ) : ℕ :=
  max 1 (pyround (planarDist p q / dem.res)).toNat

/-- Map-mode distance formula as stated in the spec:
`sqrt(d_xy^2 + (sum of abs dz along the clipped profile)^2)`. -/
noncomputable def specMapDistance (dem : DEM) (topo : Bool) (p q : ℝ × ℝ) : ℝ :=
  Real.sqrt (planarDist p q ^ 2 +
    (((diffs (profile dem topo p q (specSampleCount dem p q))).map
      (fun v => |v|)).sum) ^ 2)

/-- Matrix-mode distance formula as stated in the spec: sum of consecutive 3-D
Euclidean segment lengths between the sampled points, with the elevation
profile of the shared pipeline. -/
noncomputable def specMatrixDistance (dem : DEM) (topo : Bool) (p q : ℝ × ℝ) : ℝ :=
  (List.zipWith (fun dxy dz => Real.sqrt (dxy.1 ^ 2 + dxy.2 ^ 2 + dz ^ 2))
    (List.zip (diffs (linspace p.1 q.1 (specSampleCount dem p q)))
              (diffs (linspace p.2 q.2 (specSampleCount dem p q))))
    (diffs (profile dem topo p q (specSampleCount dem p q)))).sum

/-! ### src/pyseis/spatial_track.py -/

/-- The inner helper `cross_correlation(x, y, max_lag)` of `spatial_track`:
mean-center both signals, correlate in full mode, slice the central
`[len//2 - max_lag : len//2 + max_lag + 1]` band, and pair it with the lag
indices `np.arange(-max_lag, max_lag + 1)`. -/
noncomputable def cross_correlation (x y : List ℝ) (maxLag : ℕ) :
    List ℝ × List ℤ :=
  let cc := correlateFull (x.map (fun v => v - npMean x))
                          (y.map (fun v => v - npMean y))
  (pySlice cc (((cc.length / 2 : ℕ) : ℤ) - maxLag)
              (((cc.length / 2 : ℕ) : ℤ) + maxLag + 1),
   (List.range (2 * maxLag + 1)).map (fun i : ℕ => (i : ℤ) - maxLag))

/-- `num_windows = int((T - time_window) / (time_window - overlap)) + 1`:
Python `int()` of the float quotient truncates toward zero. -/
def numWindows (T tw ov : ℕ) : ℤ :=
  ((T : ℤ) - tw).tdiv ((tw : ℤ) - ov) + 1

/-- The slice of one signal row for window `i`:
`row[i*(time_window-overlap) : i*(time_window-overlap)+time_window]`. -/
def windowRow (row : List ℝ) (tw ov i : ℕ) : List ℝ :=
  (row.drop (i * (tw - ov))).take tw

/-- The mean / sd sequences of a tracking result (`x`, `y`, `a_0`, `var`). -/
structure TrackStats where
  x : List ℝ
  y : List ℝ
  a_0 : List ℝ
  var : List ℝ

/-- Result record of `spatial_track`. -/
structure TrackResult where
  time : List ℝ
  mean : TrackStats
  sd : TrackStats

/-- Shallow embedding of `spatial_track` (src/pyseis/spatial_track.py).
The scipy L-BFGS-B call is an external collaborator; its returned iterate
`res.x` is abstracted as the `optimizer` argument applied to the reference
channel of the current window.  When `num_windows` is negative,
`np.linspace(0, T / sampling_rate, num_windows)` raises numpy's ValueError;
when it is zero, the function silently returns an empty time series. -/
noncomputable def spatial_track (data : List (List ℝ)) (samplingRate : ℝ)
    (maxLag tw ov : ℕ) (optimizer : List ℝ → List ℝ) :
    Except String TrackResult :=
  let T := (data.headD []).length
  let nw := numWindows T tw ov
  if nw < 0 then .error "Number of samples must be non-negative"
  else
    let n := nw.toNat
    let win := fun (i : ℕ) => data.map (fun row => windowRow row tw ov i)
    let w0 := fun (i : ℕ) => (win i).headD []
    let ccMat := fun (i : ℕ) =>
      (List.range data.length).map
        (fun j => (cross_correlation (w0 i) ((win i).getD j []) maxLag).1)
    .ok
      { time := linspace 0 ((T : ℝ) / samplingRate) n
        mean :=
          { x := (List.range n).map (fun i => npMean (optimizer (w0 i)))
            y := (List.range n).map (fun i => npMean (optimizer (w0 i)))
            a_0 := (List.range n).map (fun i => npMean (win i).flatten)
            var := (List.range n).map (fun i => npMean (ccMat i).flatten) }
        sd :=
          { x := (List.range n).map (fun i => npStd (optimizer (w0 i)))
            y := (List.range n).map (fun i => npStd (optimizer (w0 i)))
            a_0 := (List.range n).map (fun i => npStd (win i).flatten)
            var := (List.range n).map (fun i => npStd (ccMat i).flatten) } }

/-! ### Helper lemmas -/

theorem linspace_length (a b : ℝ) (n : ℕ) : (linspace a b n).length = n := by
  rw [linspace, List.length_map, List.length_range]

theorem linspace_zero (a b : ℝ) : linspace a b 0 = [] := by
  rfl

theorem linspace_one (a b : ℝ) : linspace a b 1 = [a] := by
  show [a + (b - a) * ((0 : ℕ) : ℝ) / (((1 : ℕ) : ℝ) - 1)] = [a]
  norm_num

theorem linspace_self (a : ℝ) (n : ℕ) : linspace a a n = List.replicate n a := by
  rw [List.eq_replicate_iff]
  refine ⟨linspace_length a a n, ?_⟩
  intro b hb
  rw [linspace] at hb
  rcases List.mem_map.mp hb with ⟨i, -, hi⟩
  rw [← hi]
  simp

theorem diffs_nil : diffs [] = [] := rfl

theorem diffs_singleton (x : ℝ) : diffs [x] = [] := rfl

theorem diffs_replicate (n : ℕ) (a : ℝ) :
    diffs (List.replicate n a) = List.replicate (n - 1) 0 := by
  cases n with
  | zero => rfl
  | succ m =>
    simp only [diffs, List.replicate_succ, List.tail_cons, Nat.add_sub_cancel]
    rw [show (a :: List.replicate m a) = List.replicate (m + 1) a from rfl]
    rw [List.zipWith_replicate]
    simp

theorem pyround_zero : pyround 0 = 0 := by
  unfold pyround
  norm_num

theorem pyround_nonneg {x : ℝ} (hx : 0 ≤ x) : 0 ≤ pyround x := by
  have h : (0:ℤ) ≤ ⌊x⌋ := Int.floor_nonneg.mpr hx
  unfold pyround
  split
  · exact h
  · split
    · omega
    · split
      · exact h
      · omega

theorem getD_map_range {α : Type} (f : ℕ → α) (n i : ℕ) (d : α) (h : i < n) :
    ((List.range n).map f).getD i d = f i := by
  rw [List.getD_eq_getElem?_getD, List.getElem?_map, List.getElem?_range h]
  rfl

theorem foldl_min_le_init (l : List ℝ) (x : ℝ) : List.foldl min x l ≤ x := by
  induction l generalizing x with
  | nil => exact le_refl x
  | cons y ys ih => exact le_trans (ih (min x y)) (min_le_left x y)

theorem foldl_min_le_mem (l : List ℝ) : ∀ (x a : ℝ), a ∈ l →
    List.foldl min x l ≤ a := by
  induction l with
  | nil => intro x a h; cases h
  | cons y ys ih =>
    intro x a h
    rcases List.mem_cons.mp h with rfl | h2
    · exact le_trans (foldl_min_le_init ys (min x a)) (min_le_right x a)
    · exact ih (min x y) a h2

theorem le_foldl_max_init (l : List ℝ) (x : ℝ) : x ≤ List.foldl max x l := by
  induction l generalizing x with
  | nil => exact le_refl x
  | cons y ys ih => exact le_trans (le_max_left x y) (ih (max x y))

theorem le_foldl_max_mem (l : List ℝ) : ∀ (x a : ℝ), a ∈ l →
    a ≤ List.foldl max x l := by
  induction l with
  | nil => intro x a h; cases h
  | cons y ys ih =>
    intro x a h
    rcases List.mem_cons.mp h with rfl | h2
    · exact le_trans (le_max_right x a) (le_foldl_max_init ys (max x a))
    · exact ih (max x y) a h2

theorem listMin_le {l : List ℝ} {a : ℝ} (h : a ∈ l) : listMin l ≤ a := by
  cases l with
  | nil => cases h
  | cons x xs =>
    rcases List.mem_cons.mp h with rfl | h2
    · exact foldl_min_le_init xs a
    · exact foldl_min_le_mem xs x a h2

theorem le_listMax {l : List ℝ} {a : ℝ} (h : a ∈ l) : a ≤ listMax l := by
  cases l with
  | nil => cases h
  | cons x xs =>
    rcases List.mem_cons.mp h with rfl | h2
    · exact le_foldl_max_init xs a
    · exact le_foldl_max_mem xs x a h2

theorem matrixPathLength_self (dem : DEM) (topo : Bool) (p : ℝ × ℝ) :
    matrixPathLength dem topo p p = 0 := by
  have hd : planarDist p p = 0 := by
    simp [planarDist]
  have hn : nInt dem p p = 1 := by
    simp [nInt, hd, pyround_zero]
  unfold matrixPathLength
  rw [hn, linspace_one, diffs_singleton]
  simp

/-- A trivial one-cell DEM used to instantiate theorems with hypotheses:
a single cell centred at the origin, elevation 0, resolution 1. -/
noncomputable def demW : DEM :=
  { rows := 1, cols := 1, z := fun _ _ => 0, xy := fun _ _ => (0, 0),
    rowcol := fun _ _ => (0, 0), res := 1 }

theorem demW_checks :
    ¬ stationsOutside [((0 : ℝ), (0 : ℝ))] demW ∧
    ¬ aoiOutside (aoiExt demW none) demW := by
  constructor
  · norm_num [stationsOutside, demXmin, demXmax, demYmin, demYmax, xyDem, demW,
      listMin, listMax]
  · norm_num [aoiOutside, aoiExt, demXmin, demXmax, demYmin, demYmax, xyDem,
      demW, listMin, listMax]

/-! ### Claims -/

/-- C10: for every run of the tracking orchestrator, the returned mean
location sequences are identical in x and y, and likewise the sd sequences:
both components are built from the same per-window statistics of the
estimated parameter vector. -/
theorem C10_mean_sd_xy_identical (data : List (List ℝ)) (sr : ℝ) (ml tw ov : ℕ)
    (opt : List ℝ → List ℝ) :
    (spatial_track data sr ml tw ov opt).map (fun r => (r.mean.x, r.sd.x)) =
    (spatial_track data sr ml tw ov opt).map (fun r => (r.mean.y, r.sd.y)) := by
  simp only [spatial_track]
  split
  · rfl
  · rfl

/-- C2: code-bug evidence.  With 50 samples, `time_window = 100` and
`overlap = 50` the computed `num_windows` is 0 (≤ 0, the degenerate case);
the code raises no error and instead returns a result whose time series is
empty, contradicting the required `DegenerateWindow` error. -/
theorem C2_degenerate_window_returns_empty :
    Except.map (fun r => r.time)
      (spatial_track [List.replicate 50 (0 : ℝ)] 100 10 100 50 (fun _ => [])) =
      .ok [] := by
  have h1 : numWindows 50 100 50 = 0 := by decide
  simp only [spatial_track, List.headD_cons, List.length_replicate, h1]
  norm_num [Except.map, linspace_zero]

/-- C6 (amended): `num_windows` is `int((T - tw) / (tw - ov)) + 1` with the
quotient truncated toward zero, which agrees with the claimed floor formula
whenever `tw ≤ T`; window `i` covers the half-open sample range
`[i*(tw-ov), i*(tw-ov)+tw)`; and `T = 1000`, `tw = 100`, `ov = 50` gives 19
windows. -/
theorem C6_window_schedule (T tw ov : ℕ) (row : List ℝ) (i t : ℕ)
    (hov : ov < tw) (hT : tw ≤ T) (ht : t < tw) :
    numWindows T tw ov = ((T : ℤ) - tw).fdiv ((tw : ℤ) - ov) + 1 ∧
    numWindows 1000 100 50 = 19 ∧
    (windowRow row tw ov i).getD t 0 = row.getD (i * (tw - ov) + t) 0 ∧
    (windowRow row tw ov i).length = min tw (row.length - i * (tw - ov)) := by
  refine ⟨?_, by decide, ?_, ?_⟩
  · have h1 : (0 : ℤ) ≤ (T : ℤ) - tw := by omega
    have h2 : (0 : ℤ) ≤ (tw : ℤ) - ov := by omega
    rw [numWindows, Int.tdiv_eq_ediv h1 h2, Int.fdiv_eq_ediv _ h2]
  · rw [windowRow, List.getD_eq_getElem?_getD, List.getD_eq_getElem?_getD,
      List.getElem?_take, if_pos ht, List.getElem?_drop]
  · rw [windowRow, List.length_take, List.length_drop]

/-- C6 witness: the schedule theorem applied at `T = 1000`, `tw = 100`,
`ov = 50` and a concrete row and index. -/
theorem C6_window_schedule_witness :
    50 < 100 ∧ 100 ≤ 1000 ∧ 3 < 100 ∧
    (numWindows 1000 100 50 = ((1000 : ℤ) - 100).fdiv ((100 : ℤ) - 50) + 1 ∧
     numWindows 1000 100 50 = 19 ∧
     (windowRow (List.replicate 200 (0 : ℝ)) 100 50 1).getD 3 0 =
       (List.replicate 200 (0 : ℝ)).getD (1 * (100 - 50) + 3) 0 ∧
     (windowRow (List.replicate 200 (0 : ℝ)) 100 50 1).length =
       min 100 ((List.replicate 200 (0 : ℝ)).length - 1 * (100 - 50))) :=
  ⟨by decide, by decide, by decide,
   C6_window_schedule 1000 100 50 (List.replicate 200 (0 : ℝ)) 1 3
     (by decide) (by decide) (by decide)⟩

/-- C6 counterexample: for `T = 49`, `tw = 100`, `ov = 50` the code computes
`num_windows = 0` (truncation toward zero of `-51/50`), while the claimed
floor formula gives `-1`. -/
theorem C6_floor_formula_counterexample :
    numWindows 49 100 50 ≠ ((49 : ℤ) - 100).fdiv ((100 : ℤ) - 50) + 1 := by
  decide

/-- C3 (amended): for every successful run, the returned time sequence is
`np.linspace(0, T / sampling_rate, num_windows)` — `num_windows` values evenly
spaced over the whole record duration, not the window start times — and every
mean/sd sequence has the same length as the time sequence (index-aligned). -/
theorem C3_time_axis_and_alignment (data : List (List ℝ)) (sr : ℝ)
    (ml tw ov : ℕ) (opt : List ℝ → List ℝ) (hov : ov < tw)
    (hT : tw ≤ (data.headD []).length) :
    (spatial_track data sr ml tw ov opt).map (fun r => r.time) =
      .ok (linspace 0 (((data.headD []).length : ℝ) / sr)
        (numWindows (data.headD []).length tw ov).toNat) ∧
    (spatial_track data sr ml tw ov opt).map
        (fun r => [r.time.length, r.mean.x.length, r.mean.y.length,
          r.mean.a_0.length, r.mean.var.length, r.sd.x.length, r.sd.y.length,
          r.sd.a_0.length, r.sd.var.length]) =
      .ok (List.replicate 9 (numWindows (data.headD []).length tw ov).toNat) := by
  have hnw : 0 ≤ numWindows (data.headD []).length tw ov := by
    have h1 : (0 : ℤ) ≤ ((data.headD []).length : ℤ) - tw := by omega
    have h2 : (0 : ℤ) ≤ (tw : ℤ) - ov := by omega
    rw [numWindows, Int.tdiv_eq_ediv h1 h2]
    have := Int.ediv_nonneg h1 h2
    omega
  constructor
  · simp only [spatial_track]
    rw [if_neg (not_lt.mpr hnw)]
    rfl
  · simp only [spatial_track]
    rw [if_neg (not_lt.mpr hnw)]
    simp [Except.map, linspace_length, List.replicate]

/-- C3 witness: the time-axis theorem applied to a concrete two-sample,
one-station record. -/
theorem C3_time_axis_witness :
    1 < 2 ∧ 2 ≤ (([[(0 : ℝ), 0]].headD []).length) ∧
    ((spatial_track [[(0 : ℝ), 0]] 1 0 2 1 (fun _ => [])).map (fun r => r.time) =
      .ok (linspace 0 (((([[(0 : ℝ), 0]].headD []).length : ℕ) : ℝ) / 1)
        (numWindows ([[(0 : ℝ), 0]].headD []).length 2 1).toNat) ∧
     (spatial_track [[(0 : ℝ), 0]] 1 0 2 1 (fun _ => [])).map
        (fun r => [r.time.length, r.mean.x.length, r.mean.y.length,
          r.mean.a_0.length, r.mean.var.length, r.sd.x.length, r.sd.y.length,
          r.sd.a_0.length, r.sd.var.length]) =
      .ok (List.replicate 9
        (numWindows ([[(0 : ℝ), 0]].headD []).length 2 1).toNat)) :=
  ⟨by norm_num, by simp,
   C3_time_axis_and_alignment [[(0 : ℝ), 0]] 1 0 2 1 (fun _ => [])
     (by norm_num) (by simp)⟩

/-- C3 counterexample: with `T = 1000`, `sampling_rate = 100`, `tw = 100`,
`ov = 50`, entry 1 of the returned time sequence is `10/18 = 5/9`, not the
window start time `1 * (100 - 50) / 100 = 1/2`. -/
theorem C3_start_time_counterexample :
    Except.map (fun r => r.time.getD 1 0)
        (spatial_track [List.replicate 1000 (0 : ℝ)] 100 10 100 50
          (fun _ => [])) ≠
      .ok ((1 : ℝ) * (100 - 50) / 100) := by
  have h1 : numWindows 1000 100 50 = 19 := by decide
  simp only [spatial_track, List.headD_cons, List.length_replicate, h1]
  rw [if_neg (by decide)]
  simp only [Except.map]
  intro hcontra
  rw [Except.ok.injEq] at hcontra
  rw [show Int.toNat 19 = 19 from rfl, linspace,
    getD_map_range _ 19 1 0 (by norm_num)] at hcontra
  norm_num at hcontra

/-- C5: for every valid input, the returned distance matrix is N-by-N for
N stations and its entry (i, i) is exactly 0 for every i. -/
theorem C5_matrix_diagonal_zero (stations : List (ℝ × ℝ)) (dem : DEM)
    (topo m : Bool) (aoi : Option (ℝ × ℝ × ℝ × ℝ))
    (h1 : ¬ stationsOutside stations dem)
    (h2 : ¬ aoiOutside (aoiExt dem aoi) dem) (i : ℕ)
    (hi : i < stations.length) :
    (spatial_distance stations dem topo m true aoi).map
        (fun r => r.matrix.map (fun M => (M.length, M.map List.length))) =
      .ok (some (stations.length,
        List.replicate stations.length stations.length)) ∧
    matEntry (spatial_distance stations dem topo m true aoi) i i = 0 := by
  unfold spatial_distance
  rw [if_neg h1, if_neg h2]
  constructor
  · simp only [Except.map]
    rw [if_pos trivial]
    simp only [Option.map_some', Except.ok.injEq, Option.some.injEq,
      List.map_map, List.length_map, Prod.mk.injEq]
    refine ⟨trivial, ?_⟩
    rw [List.eq_replicate_iff]
    refine ⟨by rw [List.length_map], ?_⟩
    intro b hb
    rcases List.mem_map.mp hb with ⟨s, -, rfl⟩
    simp
  · simp only [matEntry]
    rw [if_pos trivial]
    simp only [Option.getD_some]
    have hrow : (List.map
        (fun si => List.map (fun sj => matrixPathLength dem topo si sj)
          stations) stations).getD i [] =
        List.map (fun sj => matrixPathLength dem topo stations[i] sj)
          stations := by
      rw [List.getD_eq_getElem?_getD, List.getElem?_map,
        List.getElem?_eq_getElem hi, Option.map_some', Option.getD_some]
    rw [hrow, List.getD_eq_getElem?_getD, List.getElem?_map,
      List.getElem?_eq_getElem hi, Option.map_some', Option.getD_some]
    exact matrixPathLength_self dem topo stations[i]

/-- C5 witness: the diagonal theorem applied to one station on the trivial
one-cell DEM. -/
theorem C5_matrix_diagonal_witness :
    ¬ stationsOutside [((0 : ℝ), (0 : ℝ))] demW ∧
    ¬ aoiOutside (aoiExt demW none) demW ∧
    0 < ([((0 : ℝ), (0 : ℝ))] : List (ℝ × ℝ)).length ∧
    matEntry (spatial_distance [((0 : ℝ), (0 : ℝ))] demW true false true none)
      0 0 = 0 :=
  ⟨demW_checks.1, demW_checks.2, by norm_num,
   (C5_matrix_diagonal_zero [((0 : ℝ), (0 : ℝ))] demW true false none
     demW_checks.1 demW_checks.2 0 (by norm_num)).2⟩

theorem getD_map_eq {α β : Type} (l : List α) (f : α → β) (i : ℕ) (d : β)
    (hi : i < l.length) : (l.map f).getD i d = f l[i] := by
  rw [List.getD_eq_getElem?_getD, List.getElem?_map,
    List.getElem?_eq_getElem hi, Option.map_some', Option.getD_some]

theorem getLastD_replicate (m : ℕ) (c : ℝ) : ∀ d : ℝ,
    (List.replicate (m + 1) c).getLastD d = c := by
  induction m with
  | zero => intro d; rfl
  | succ k ih =>
    intro d
    rw [List.replicate_succ, List.getLastD_cons]
    exact ih c

theorem zInt_const (dem : DEM) (c : ℝ) (hz : ∀ j k, dem.z j k = c)
    (p q : ℝ × ℝ) (n : ℕ) : zInt dem p q n = List.replicate n c := by
  rw [List.eq_replicate_iff]
  constructor
  · rw [zInt, List.length_map, List.length_zip, linspace_length,
      linspace_length, min_self]
  · intro b hb
    rw [zInt] at hb
    rcases List.mem_map.mp hb with ⟨pt, -, rfl⟩
    exact hz _ _

theorem zDirRaw_const (dem : DEM) (c : ℝ) (hz : ∀ j k, dem.z j k = c)
    (p q : ℝ × ℝ) (n : ℕ) : zDirRaw dem p q n = List.replicate n c := by
  rw [zDirRaw, zInt_const dem c hz]
  cases n with
  | zero => rfl
  | succ m =>
    rw [show (List.replicate (m + 1) c).headD 0 = c by
        rw [List.replicate_succ]; rfl,
      getLastD_replicate m c 0, linspace_self]

theorem profile_const (dem : DEM) (c : ℝ) (hz : ∀ j k, dem.z j k = c)
    (p q : ℝ × ℝ) (n : ℕ) : profile dem true p q n = List.replicate n c := by
  rw [profile, if_pos rfl, clipProfile, zDirRaw_const dem c hz,
    zInt_const dem c hz, List.zipWith_replicate, min_self]
  simp

/-- C4: for every valid DEM, station set and AOI, every distance-map cell
outside the AOI holds the undefined marker, and every cell inside the AOI
holds a (finite) distance value. -/
theorem C4_map_aoi_partition (stations : List (ℝ × ℝ)) (dem : DEM)
    (topo mtx : Bool) (aoi : Option (ℝ × ℝ × ℝ × ℝ))
    (h1 : ¬ stationsOutside stations dem)
    (h2 : ¬ aoiOutside (aoiExt dem aoi) dem)
    (i j k : ℕ) (hi : i < stations.length) (hj : j < dem.rows)
    (hk : k < dem.cols) :
    (inAOI (aoiExt dem aoi) (dem.xy j k) →
      (mapCell (spatial_distance stations dem topo true mtx aoi)
        i j k).isSome = true) ∧
    (¬ inAOI (aoiExt dem aoi) (dem.xy j k) →
      mapCell (spatial_distance stations dem topo true mtx aoi)
        i j k = none) := by
  unfold spatial_distance
  rw [if_neg h1, if_neg h2]
  simp only [mapCell]
  rw [if_pos trivial]
  rw [getD_map_eq stations _ i none hi, Option.getD_some,
    getD_map_range _ dem.rows j [] hj, getD_map_range _ dem.cols k none hk]
  constructor
  · intro h
    rw [if_pos h]
    rfl
  · intro h
    rw [if_neg h]

/-- C4 witness: the partition theorem applied to the trivial one-cell DEM,
whose single cell lies inside the default AOI. -/
theorem C4_map_aoi_witness :
    ¬ stationsOutside [((0 : ℝ), (0 : ℝ))] demW ∧
    ¬ aoiOutside (aoiExt demW none) demW ∧
    inAOI (aoiExt demW none) (demW.xy 0 0) ∧
    (mapCell (spatial_distance [((0 : ℝ), (0 : ℝ))] demW true true false none)
      0 0 0).isSome = true :=
  ⟨demW_checks.1, demW_checks.2,
   by norm_num [inAOI, aoiExt, demXmin, demXmax, demYmin, demYmax, xyDem,
     demW, listMin, listMax],
   (C4_map_aoi_partition [((0 : ℝ), (0 : ℝ))] demW true false none
       demW_checks.1 demW_checks.2 0 0 0 (by norm_num) (by norm_num [demW])
       (by norm_num [demW])).1
     (by norm_num [inAOI, aoiExt, demXmin, demXmax, demYmin, demYmax, xyDem,
       demW, listMin, listMax])⟩

/-- C7: if any station coordinate lies outside the DEM extent, the distance
engine fails with the station-extent error before any computation, producing
no maps and no matrix. -/
theorem C7_invalid_station_raises (stations : List (ℝ × ℝ)) (dem : DEM)
    (topo m mtx : Bool) (aoi : Option (ℝ × ℝ × ℝ × ℝ)) (s : ℝ × ℝ)
    (hs : s ∈ stations)
    (hout : s.1 < demXmin dem ∨ demXmax dem < s.1 ∨
            s.2 < demYmin dem ∨ demYmax dem < s.2) :
    spatial_distance stations dem topo m mtx aoi =
      .error "Some station coordinates are outside DEM extent!" := by
  have hcond : stationsOutside stations dem := by
    rcases hout with h | h | h | h
    · exact Or.inl (lt_of_le_of_lt
        (listMin_le (List.mem_map_of_mem Prod.fst hs)) h)
    · exact Or.inr (Or.inl (lt_of_lt_of_le h
        (le_listMax (List.mem_map_of_mem Prod.fst hs))))
    · exact Or.inr (Or.inr (Or.inl (lt_of_le_of_lt
        (listMin_le (List.mem_map_of_mem Prod.snd hs)) h)))
    · exact Or.inr (Or.inr (Or.inr (lt_of_lt_of_le h
        (le_listMax (List.mem_map_of_mem Prod.snd hs)))))
  unfold spatial_distance
  rw [if_pos hcond]

/-- C7 witness: a station at x = 5 is east of the one-cell DEM centred at the
origin, and the call returns the station-extent error. -/
theorem C7_invalid_station_witness :
    (((5 : ℝ), (0 : ℝ)) ∈ [((5 : ℝ), (0 : ℝ))]) ∧
    demXmax demW < (5 : ℝ) ∧
    spatial_distance [((5 : ℝ), (0 : ℝ))] demW true true true none =
      .error "Some station coordinates are outside DEM extent!" :=
  ⟨by simp,
   by norm_num [demXmax, xyDem, demW, listMax],
   C7_invalid_station_raises [((5 : ℝ), (0 : ℝ))] demW true true true none
     ((5 : ℝ), (0 : ℝ)) (by simp)
     (Or.inr (Or.inl (by norm_num [demXmax, xyDem, demW, listMax])))⟩

/-- C8: on flat terrain (constant elevation grid), the topography-corrected
map-mode distance equals the planar Euclidean distance for every pair of
points, and the clipping step never changes the elevation profile. -/
theorem C8_flat_terrain (dem : DEM) (c : ℝ) (hz : ∀ j k, dem.z j k = c)
    (p q : ℝ × ℝ) :
    mapLineLength dem true p q = planarDist p q ∧
    profile dem true p q (nInt dem p q) = zDirRaw dem p q (nInt dem p q) := by
  constructor
  · rw [mapLineLength, profile_const dem c hz, diffs_replicate,
      List.map_replicate, abs_zero, List.sum_replicate, smul_zero]
    rw [planarDist]
    norm_num
  · rw [profile_const dem c hz, zDirRaw_const dem c hz]

/-- C8 witness: the flat-terrain theorem applied to the one-cell DEM (whose
elevation grid is constantly 0) and the pair (0,0), (3,4). -/
theorem C8_flat_terrain_witness :
    (∀ j k, demW.z j k = 0) ∧
    (mapLineLength demW true (0, 0) (3, 4) = planarDist (0, 0) (3, 4) ∧
     profile demW true (0, 0) (3, 4) (nInt demW (0, 0) (3, 4)) =
       zDirRaw demW (0, 0) (3, 4) (nInt demW (0, 0) (3, 4))) :=
  ⟨fun _ _ => rfl, C8_flat_terrain demW 0 (fun _ _ => rfl) (0, 0) (3, 4)⟩

theorem pySlice_natRange {α : Type} (l : List α) (a b : ℕ)
    (ha : a ≤ l.length) (hb : b ≤ l.length) :
    pySlice l (a : ℤ) (b : ℤ) = (l.drop a).take (b - a) := by
  simp only [pySlice]
  rw [if_neg (by omega), if_neg (by omega),
    min_eq_left (by exact_mod_cast hb), min_eq_left (by exact_mod_cast ha),
    Int.toNat_natCast, Int.toNat_natCast]

/-- C9 (amended): for equal-length signals of length L and every
`max_lag < L` (the original claim said every integer `max_lag`; for
`max_lag ≥ L` the slice is truncated), the cross-correlator returns exactly
`2*max_lag + 1` correlation values together with the lag indices
`-max_lag .. max_lag`, and the value at index `idx` is the correlation of the
mean-centered signals at lag `idx - max_lag`. -/
theorem C9_cross_correlation (x y : List ℝ) (maxLag : ℕ)
    (hlen : x.length = y.length) (hml : maxLag < x.length)
    (idx : ℕ) (hidx : idx < 2 * maxLag + 1) :
    (cross_correlation x y maxLag).1.length = 2 * maxLag + 1 ∧
    (cross_correlation x y maxLag).2.length = 2 * maxLag + 1 ∧
    (cross_correlation x y maxLag).2.getD idx 0 = (idx : ℤ) - maxLag ∧
    (cross_correlation x y maxLag).1.getD idx 0 =
      corrAtLag (x.map (fun v => v - npMean x))
        (y.map (fun v => v - npMean y)) ((idx : ℤ) - maxLag) := by
  have hcc : (correlateFull (x.map (fun v => v - npMean x))
      (y.map (fun v => v - npMean y))).length = 2 * x.length - 1 := by
    rw [correlateFull, List.length_map, List.length_range, List.length_map,
      List.length_map, ← hlen]
    omega
  have hvlen : ((y.map (fun v => v - npMean y)).length : ℤ) = (x.length : ℤ) := by
    rw [List.length_map, hlen]
  have hdiv : (2 * x.length - 1) / 2 = x.length - 1 := by omega
  have hslice : (cross_correlation x y maxLag).1 =
      ((correlateFull (x.map (fun v => v - npMean x))
        (y.map (fun v => v - npMean y))).drop (x.length - 1 - maxLag)).take
        (2 * maxLag + 1) := by
    simp only [cross_correlation]
    rw [hcc, hdiv,
      show ((x.length - 1 : ℕ) : ℤ) - (maxLag : ℤ) =
        ((x.length - 1 - maxLag : ℕ) : ℤ) by omega,
      show ((x.length - 1 : ℕ) : ℤ) + (maxLag : ℤ) + 1 =
        ((x.length + maxLag : ℕ) : ℤ) by omega,
      pySlice_natRange _ (x.length - 1 - maxLag) (x.length + maxLag)
        (by rw [hcc]; omega) (by rw [hcc]; omega),
      show x.length + maxLag - (x.length - 1 - maxLag) = 2 * maxLag + 1 by
        omega]
  refine ⟨?_, ?_, ?_, ?_⟩
  · rw [hslice, List.length_take, List.length_drop, hcc]
    omega
  · simp only [cross_correlation]
    rw [List.length_map, List.length_range]
  · simp only [cross_correlation]
    exact getD_map_range _ (2 * maxLag + 1) idx 0 hidx
  · rw [hslice, List.getD_eq_getElem?_getD, List.getElem?_take, if_pos hidx,
      List.getElem?_drop, correlateFull]
    have hrange : (x.map (fun v => v - npMean x)).length +
        (y.map (fun v => v - npMean y)).length - 1 = 2 * x.length - 1 := by
      rw [List.length_map, List.length_map, ← hlen]
      omega
    rw [hrange, List.getElem?_map,
      List.getElem?_range (by omega : x.length - 1 - maxLag + idx <
        2 * x.length - 1), Option.map_some', Option.getD_some, hvlen]
    congr 1
    omega

/-- C9 witness: the amended theorem applied to the three-sample signals
`[1, 2, 3]` with `max_lag = 1` at output index 2 (lag +1). -/
theorem C9_cross_correlation_witness :
    ([(1 : ℝ), 2, 3].length = [(1 : ℝ), 2, 3].length) ∧
    1 < [(1 : ℝ), 2, 3].length ∧ 2 < 2 * 1 + 1 ∧
    ((cross_correlation [(1 : ℝ), 2, 3] [(1 : ℝ), 2, 3] 1).1.length =
       2 * 1 + 1 ∧
     (cross_correlation [(1 : ℝ), 2, 3] [(1 : ℝ), 2, 3] 1).2.length =
       2 * 1 + 1 ∧
     (cross_correlation [(1 : ℝ), 2, 3] [(1 : ℝ), 2, 3] 1).2.getD 2 0 =
       (2 : ℤ) - 1 ∧
     (cross_correlation [(1 : ℝ), 2, 3] [(1 : ℝ), 2, 3] 1).1.getD 2 0 =
       corrAtLag ([(1 : ℝ), 2, 3].map (fun v => v - npMean [(1 : ℝ), 2, 3]))
         ([(1 : ℝ), 2, 3].map (fun v => v - npMean [(1 : ℝ), 2, 3]))
         ((2 : ℤ) - 1)) :=
  ⟨rfl, by norm_num, by norm_num,
   C9_cross_correlation [(1 : ℝ), 2, 3] [(1 : ℝ), 2, 3] 1 rfl (by norm_num) 2
     (by norm_num)⟩

/-- C9 counterexample: for one-sample signals and `max_lag = 1` the Python
slice wraps its negative start index around, so only 1 correlation value is
returned instead of the claimed `2*max_lag + 1 = 3`. -/
theorem C9_maxlag_counterexample :
    ((cross_correlation [(1 : ℝ)] [(1 : ℝ)] 1).1).length ≠ 2 * 1 + 1 := by
  have h1 : (correlateFull ([(1 : ℝ)].map (fun v => v - npMean [(1 : ℝ)]))
      ([(1 : ℝ)].map (fun v => v - npMean [(1 : ℝ)]))).length = 1 := by
    simp [correlateFull]
  simp only [cross_correlation, pySlice, h1]
  rw [List.length_take, List.length_drop, h1]
  norm_num

theorem pyround_intCast (z : ℤ) : pyround (z : ℝ) = z := by
  rw [pyround, Int.floor_intCast]
  norm_num

theorem nInt_eq_specSampleCount (dem : DEM) (p q : ℝ × ℝ)
    (hres : 0 < dem.res) : nInt dem p q = specSampleCount dem p q := by
  have hnn : 0 ≤ pyround (planarDist p q / dem.res) :=
    pyround_nonneg (div_nonneg (Real.sqrt_nonneg _) (le_of_lt hres))
  simp only [nInt, specSampleCount]
  split_ifs with h
  · simp [h]
  · omega

theorem mapLineLength_eq_spec (dem : DEM) (topo : Bool) (p q : ℝ × ℝ)
    (hres : 0 < dem.res) :
    mapLineLength dem topo p q = specMapDistance dem topo p q := by
  rw [mapLineLength, specMapDistance, nInt_eq_specSampleCount dem p q hres,
    planarDist, Real.sq_sqrt (by positivity)]

theorem matrixPathLength_eq_spec (dem : DEM) (topo : Bool) (p q : ℝ × ℝ)
    (hres : 0 < dem.res) :
    matrixPathLength dem topo p q = specMatrixDistance dem topo p q := by
  rw [matrixPathLength, specMatrixDistance,
    nInt_eq_specSampleCount dem p q hres]

/-- A three-cell DEM with a valley east of the origin, on which the map-mode
and matrix-mode distance formulas give different values for the same pair of
points. -/
noncomputable def demC : DEM :=
  { rows := 1, cols := 3,
    z := fun _ k => if k = 0 then 0 else -8,
    xy := fun _ k => (3 / 2 * (k : ℝ), 0),
    rowcol := fun x _ => (0, if x ≤ 1 then 0 else if x ≤ 2 then 1 else 2),
    res := 1 }

theorem planar_demC : planarDist ((0 : ℝ), (0 : ℝ)) ((3 : ℝ), (0 : ℝ)) = 3 := by
  rw [planarDist]
  norm_num
  rw [show (9 : ℝ) = 3 ^ 2 by norm_num, Real.sqrt_sq (by norm_num)]

theorem specSampleCount_demC : specSampleCount demC (0, 0) (3, 0) = 3 := by
  rw [specSampleCount, planar_demC, show demC.res = 1 from rfl, div_one,
    show (3 : ℝ) = ((3 : ℤ) : ℝ) by norm_num, pyround_intCast]
  rfl

theorem linspace_0_3_3 : linspace 0 3 3 = [0, 3 / 2, 3] := by
  rw [linspace, show List.range 3 = [0, 1, 2] from rfl]
  norm_num

theorem linspace_0_neg8_3 : linspace 0 (-8) 3 = [0, -4, -8] := by
  rw [linspace, show List.range 3 = [0, 1, 2] from rfl]
  norm_num

theorem zInt_demC : zInt demC (0, 0) (3, 0) 3 = [0, -8, -8] := by
  rw [show zInt demC (0, 0) (3, 0) 3 =
      (List.zip (linspace 0 3 3) (linspace 0 0 3)).map
        (fun pt => demC.z (demC.rowcol pt.1 pt.2).1
          (demC.rowcol pt.1 pt.2).2) from rfl,
    linspace_0_3_3, linspace_self,
    show List.replicate 3 (0 : ℝ) = [0, 0, 0] from rfl]
  norm_num [demC]

theorem zDir_demC : zDirRaw demC (0, 0) (3, 0) 3 = [0, -4, -8] := by
  rw [zDirRaw, zInt_demC,
    show ([(0 : ℝ), -8, -8].headD 0) = 0 from rfl,
    show ([(0 : ℝ), -8, -8].getLastD 0) = -8 from rfl]
  exact linspace_0_neg8_3

theorem profile_demC : profile demC true (0, 0) (3, 0) 3 = [0, -8, -8] := by
  rw [profile, if_pos rfl, zDir_demC, zInt_demC, clipProfile]
  norm_num

theorem specMap_demC :
    specMapDistance demC true (0, 0) (3, 0) = Real.sqrt 73 := by
  rw [specMapDistance, specSampleCount_demC, profile_demC, planar_demC]
  norm_num [diffs]

theorem specMatrix_demC :
    specMatrixDistance demC true (0, 0) (3, 0) =
      Real.sqrt (265 / 4) + 3 / 2 := by
  rw [specMatrixDistance, specSampleCount_demC,
    show linspace ((0 : ℝ), (0 : ℝ)).1 ((3 : ℝ), (0 : ℝ)).1 3 =
      linspace 0 3 3 from rfl,
    show linspace ((0 : ℝ), (0 : ℝ)).2 ((3 : ℝ), (0 : ℝ)).2 3 =
      linspace 0 0 3 from rfl,
    linspace_0_3_3, linspace_self, profile_demC,
    show List.replicate 3 (0 : ℝ) = [0, 0, 0] from rfl]
  norm_num [diffs]
  rw [show (9 : ℝ) = 3 ^ 2 by norm_num, show (4 : ℝ) = 2 ^ 2 by norm_num,
    Real.sqrt_sq (by norm_num : (0 : ℝ) ≤ 3),
    Real.sqrt_sq (by norm_num : (0 : ℝ) ≤ 2)]

theorem specDistinct_demC :
    specMapDistance demC true (0, 0) (3, 0) ≠
      specMatrixDistance demC true (0, 0) (3, 0) := by
  rw [specMap_demC, specMatrix_demC]
  intro h
  have h1 : Real.sqrt 73 < 9 :=
    (Real.sqrt_lt' (by norm_num : (0 : ℝ) < 9)).mpr (by norm_num)
  have h2 : (15 / 2 : ℝ) < Real.sqrt (265 / 4) :=
    (Real.lt_sqrt (by norm_num : (0 : ℝ) ≤ 15 / 2)).mpr (by norm_num)
  linarith

/-- C1: for every station/cell pair inside the AOI the map-mode cell value is
`sqrt(d_xy^2 + (sum of abs dz along the clipped profile)^2)`, for every
ordered station pair the matrix entry is the sum of consecutive 3-D segment
lengths over the same sampled profile, and the two formulas are distinct:
there is a concrete DEM and pair of points on which they differ. -/
theorem C1_map_and_matrix_formulas (stations : List (ℝ × ℝ)) (dem : DEM)
    (topo : Bool) (aoi : Option (ℝ × ℝ × ℝ × ℝ))
    (h1 : ¬ stationsOutside stations dem)
    (h2 : ¬ aoiOutside (aoiExt dem aoi) dem) (hres : 0 < dem.res)
    (i j k a b : ℕ) (hi : i < stations.length) (hj : j < dem.rows)
    (hk : k < dem.cols) (hin : inAOI (aoiExt dem aoi) (dem.xy j k))
    (ha : a < stations.length) (hb : b < stations.length) :
    mapCell (spatial_distance stations dem topo true true aoi) i j k =
      some (specMapDistance dem topo stations[i] (dem.xy j k)) ∧
    matEntry (spatial_distance stations dem topo true true aoi) a b =
      specMatrixDistance dem topo stations[a] stations[b] ∧
    specMapDistance demC true (0, 0) (3, 0) ≠
      specMatrixDistance demC true (0, 0) (3, 0) := by
  refine ⟨?_, ?_, specDistinct_demC⟩
  · unfold spatial_distance
    rw [if_neg h1, if_neg h2]
    simp only [mapCell]
    rw [if_pos trivial, getD_map_eq stations _ i none hi, Option.getD_some,
      getD_map_range _ dem.rows j [] hj, getD_map_range _ dem.cols k none hk,
      if_pos hin, mapLineLength_eq_spec dem topo _ _ hres]
  · unfold spatial_distance
    rw [if_neg h1, if_neg h2]
    simp only [matEntry]
    rw [if_pos trivial]
    simp only [Option.getD_some]
    have hrow : (List.map (fun si => List.map
        (fun sj => matrixPathLength dem topo si sj) stations)
          stations).getD a [] =
        List.map (fun sj => matrixPathLength dem topo stations[a] sj)
          stations := by
      rw [getD_map_eq stations _ a [] ha]
    rw [hrow, getD_map_eq stations _ b 0 hb,
      matrixPathLength_eq_spec dem topo _ _ hres]

/-- C1 witness: the formula theorem applied to one station on the trivial
one-cell DEM (the distinctness conjunct is closed and carried along). -/
theorem C1_map_and_matrix_witness :
    ¬ stationsOutside [((0 : ℝ), (0 : ℝ))] demW ∧
    ¬ aoiOutside (aoiExt demW none) demW ∧ (0 : ℝ) < demW.res ∧
    inAOI (aoiExt demW none) (demW.xy 0 0) ∧
    (mapCell (spatial_distance [((0 : ℝ), (0 : ℝ))] demW true true true none)
        0 0 0 =
      some (specMapDistance demW true [((0 : ℝ), (0 : ℝ))][0]
        (demW.xy 0 0)) ∧
     matEntry (spatial_distance [((0 : ℝ), (0 : ℝ))] demW true true true none)
        0 0 =
      specMatrixDistance demW true [((0 : ℝ), (0 : ℝ))][0]
        [((0 : ℝ), (0 : ℝ))][0] ∧
     specMapDistance demC true (0, 0) (3, 0) ≠
       specMatrixDistance demC true (0, 0) (3, 0)) :=
  ⟨demW_checks.1, demW_checks.2, by norm_num [demW],
   by norm_num [inAOI, aoiExt, demXmin, demXmax, demYmin, demYmax, xyDem,
     demW, listMin, listMax],
   C1_map_and_matrix_formulas [((0 : ℝ), (0 : ℝ))] demW true none
     demW_checks.1 demW_checks.2 (by norm_num [demW]) 0 0 0 0 0
     (by norm_num) (by norm_num [demW]) (by norm_num [demW])
     (by norm_num [inAOI, aoiExt, demXmin, demXmax, demYmin, demYmax, xyDem,
       demW, listMin, listMax])
     (by norm_num) (by norm_num)⟩

end Pyseis
